import Mathlib

/-!
Shallow embedding of the adaptive GPU sort scheduler implemented in
`src/platforms/cuda/src/CudaSort.cpp` (class `CudaSort`), together with
theorems checking the natural-language specification against it.

The construction-time configuration arithmetic (`CudaSort::CudaSort`,
lines 55-84) and the dispatch logic of `CudaSort::sort` (lines 101-142)
are translated directly from the C++ source.  The device-side kernel
programs (`CudaKernelSources::sort`) are not part of the source tree;
where a claim depends on what a kernel computes, the kernel is modelled
from the spec's description of its contract, and the corresponding
definitions say so in their doc comments.

All machine integers involved (`unsigned int`, the `int` results of
`cuDeviceGetAttribute`) are modelled as `Nat`: every quantity in the
derivation is non-negative, only grows by doubling up to the device
block-size limit, and is otherwise only divided or clamped downward, so
no overflow wraparound can occur for any realizable device limit.
-/

namespace CudaSortModel

/-- The part of the `SortTrait` interface that the scheduler's arithmetic
reads: `getDataSize()` (bytes per record) and `getKeySize()` (bytes per
key). -/
structure SortTrait where
  dataSize : Nat
  keySize : Nat
deriving DecidableEq, Repr

/-- The two device attributes queried in the constructor:
`CU_DEVICE_ATTRIBUTE_MAX_BLOCK_DIM_X` and
`CU_DEVICE_ATTRIBUTE_MAX_SHARED_MEMORY_PER_BLOCK`. -/
structure Device where
  maxBlockSize : Nat
  maxSharedMem : Nat
deriving DecidableEq, Repr

/-- `maxLocalBuffer = (maxSharedMem / dataSize) / 2` (C++ line 59; both
divisions are integer divisions). -/
def maxLocalBuffer (maxSharedMem dataSize : Nat) : Nat :=
  maxSharedMem / dataSize / 2

/-- The loop `for (rangeKernelSize = 1; rangeKernelSize*2 <= maxBlockSize;
rangeKernelSize *= 2);` (C++ lines 61-62), written with an explicit fuel
argument.  Starting from `k = 1` the running value doubles every step, so
`fuel = maxBlockSize` steps always suffice to reach the exit condition
(`2 ^ maxBlockSize > maxBlockSize`). -/
def rangeLoop (maxBlockSize : Nat) : Nat → Nat → Nat
  | k, 0 => k
  | k, fuel + 1 => if k * 2 ≤ maxBlockSize then rangeLoop maxBlockSize (k * 2) fuel else k

/-- The value of `rangeKernelSize` right after the loop, before any
clamping. -/
def rangeKernelSize0 (maxBlockSize : Nat) : Nat :=
  rangeLoop maxBlockSize 1 maxBlockSize

/-- The configuration fields stored by `CudaSort::CudaSort` (the
`numBuckets` field records the element count of the `bucketOffset` array,
which `CudaSort::sort` reads back via `bucketOffset->getSize()`). -/
structure SortConfig where
  dataLength : Nat
  isShortList : Bool
  rangeKernelSize : Nat
  positionsKernelSize : Nat
  sortKernelSize : Nat
  numBuckets : Nat
deriving DecidableEq, Repr

/-- `isShortList = (length <= maxLocalBuffer)` (C++ line 60). -/
def isShortList (dev : Device) (trait : SortTrait) (length : Nat) : Bool :=
  decide (length ≤ maxLocalBuffer dev.maxSharedMem trait.dataSize)

/-- `sortKernelSize = (isShortList ? rangeKernelSize/2 : rangeKernelSize/4)`
(C++ line 64).  At this point in the constructor `rangeKernelSize` still
holds the loop value, before the clamp to `length` on lines 65-66. -/
def sortKernelSize0 (dev : Device) (trait : SortTrait) (length : Nat) : Nat :=
  if isShortList dev trait length then rangeKernelSize0 dev.maxBlockSize / 2
  else rangeKernelSize0 dev.maxBlockSize / 4

/-- `rangeKernelSize` after `if (rangeKernelSize > length) rangeKernelSize
= length;` (C++ lines 65-66). -/
def rangeKernelSize (dev : Device) (_trait : SortTrait) (length : Nat) : Nat :=
  if length < rangeKernelSize0 dev.maxBlockSize then length
  else rangeKernelSize0 dev.maxBlockSize

/-- `sortKernelSize` after `if (sortKernelSize > maxLocalBuffer)
sortKernelSize = maxLocalBuffer;` (C++ lines 67-68). -/
def sortKernelSize (dev : Device) (trait : SortTrait) (length : Nat) : Nat :=
  if maxLocalBuffer dev.maxSharedMem trait.dataSize < sortKernelSize0 dev trait length then
    maxLocalBuffer dev.maxSharedMem trait.dataSize
  else sortKernelSize0 dev trait length

/-- `targetBucketSize = sortKernelSize/2` (C++ line 69), the divisor of
the bucket-count division on line 70.  The C++ divides by it
unconditionally; when it is `0` that division is undefined behaviour, so
theorems about constructed configurations carry `0 < targetBucketSize`
as a well-definedness hypothesis where the affected fields matter. -/
def targetBucketSize (dev : Device) (trait : SortTrait) (length : Nat) : Nat :=
  sortKernelSize dev trait length / 2

/-- `numBuckets = length/targetBucketSize` then `if (numBuckets < 1)
numBuckets = 1;` (C++ lines 70-72). -/
def numBuckets (dev : Device) (trait : SortTrait) (length : Nat) : Nat :=
  if length / targetBucketSize dev trait length < 1 then 1
  else length / targetBucketSize dev trait length

/-- `positionsKernelSize` starts as the loop value (C++ line 63) and is
clamped by `if (positionsKernelSize > numBuckets) positionsKernelSize =
numBuckets;` (C++ lines 73-74). -/
def positionsKernelSize (dev : Device) (trait : SortTrait) (length : Nat) : Nat :=
  if numBuckets dev trait length < rangeKernelSize0 dev.maxBlockSize then
    numBuckets dev trait length
  else rangeKernelSize0 dev.maxBlockSize

/-- The configuration computed by `CudaSort::CudaSort` (C++ lines 59-74),
assembled from the per-field derivations above. -/
def mkConfig (dev : Device) (trait : SortTrait) (length : Nat) : SortConfig :=
  { dataLength := length
    isShortList := isShortList dev trait length
    rangeKernelSize := rangeKernelSize dev trait length
    positionsKernelSize := positionsKernelSize dev trait length
    sortKernelSize := sortKernelSize dev trait length
    numBuckets := numBuckets dev trait length }

/-- The six kernels retrieved from the compiled module (C++ lines 46-51). -/
inductive KernelName where
  | sortShortList
  | computeRange
  | assignElementsToBuckets
  | computeBucketPositions
  | copyDataToBuckets
  | sortBuckets
deriving DecidableEq, Repr

/-- One backend operation issued by `CudaSort::sort`: either
`context.executeKernel(kernel, args, totalThreads, groupSize, sharedBytes)`
(`groupSize = none` models the two call sites that omit the block-size
and shared-memory arguments and take the context defaults) or
`context.clearBuffer(...)`. -/
inductive DeviceOp where
  | launch (kernel : KernelName) (totalThreads : Nat) (groupSize : Option Nat) (sharedBytes : Nat)
  | clearBuffer (buffer : String)
deriving DecidableEq, Repr

/-- The one error `CudaSort::sort` can raise itself (the
`OpenMMException` thrown on line 103 for a buffer of the wrong size). -/
inductive SortError where
  | invalidArgument
deriving DecidableEq, Repr

/-- The `CudaArray& data` argument of `sort`: its element list (so
`data.getSize()` is `elems.length`) and its `getElementSize()`. -/
structure Buffer (R : Type) where
  elems : List R
  elementSize : Nat

/-- Outcome of one `sort` call: the ordered trace of backend operations
issued, and either the sorted contents of the borrowed buffer or the
error thrown (thrown before any backend work). -/
structure SortRun (R : Type) where
  ops : List DeviceOp
  result : Except SortError (List R)

/-- Key ordering on records: `a` precedes `b` when its extracted sort key
is not larger. -/
def keyLE {R : Type} (key : R → Nat) : R → R → Prop :=
  fun a b => key a ≤ key b

instance {R : Type} (key : R → Nat) : DecidableRel (keyLE key) :=
  fun a b => Nat.decLe (key a) (key b)

instance {R : Type} (key : R → Nat) : IsTotal R (keyLE key) :=
  ⟨fun a b => Nat.le_total (key a) (key b)⟩

instance {R : Type} (key : R → Nat) : IsTrans R (keyLE key) :=
  ⟨fun _ _ _ hab hbc => Nat.le_trans hab hbc⟩

/-- Modelled from the spec: the `sortShortList` kernel program is not in
the source tree; its contract is "given the full record array and its
length, produce the same array sorted ascending by extracted key".
Modelled as a stable sort by key. -/
def sortShortListKernel {R : Type} (key : R → Nat) (l : List R) : List R :=
  List.insertionSort (keyLE key) l

/-- Modelled from the spec: the minimum extracted key found by the
`computeRange` kernel (the first component written into `keyRange`). -/
def keyMinOf {R : Type} (key : R → Nat) : List R → Nat
  | [] => 0
  | x :: xs => xs.foldl (fun m y => min m (key y)) (key x)

/-- Modelled from the spec: the maximum extracted key found by the
`computeRange` kernel (the second component written into `keyRange`). -/
def keyMaxOf {R : Type} (key : R → Nat) : List R → Nat
  | [] => 0
  | x :: xs => xs.foldl (fun m y => max m (key y)) (key x)

/-- Modelled from the spec: the `assignElementsToBuckets` kernel "maps
its element's key into one of `numBuckets` intervals using `keyRange`" —
buckets partition the key range `[lo, hi]` into `numBuckets` equal-width
intervals, and every key is mapped into some interval (the last interval
absorbs the top of the range). -/
def bucketIndex (lo hi numBuckets k : Nat) : Nat :=
  min ((k - lo) * numBuckets / (hi - lo + 1)) (numBuckets - 1)

/-- Modelled from the spec: the contents of the `buckets` scratch array
after the stable scatter — for each bucket in order, the input elements
assigned to it, in input order ("elements within the same bucket preserve
assignment order"). -/
def bucketListsOf {R : Type} (key : R → Nat) (numBuckets lo hi : Nat) (l : List R) :
    List (List R) :=
  (List.range numBuckets).map
    (fun i => l.filter (fun x => bucketIndex lo hi numBuckets (key x) == i))

/-- Modelled from the spec: the buffer contents after the five-stage
bucket pipeline — compute the key range, partition elements into
key-range buckets (stable), sort each bucket, and write the buckets back
in order. -/
def bucketPipeline {R : Type} (key : R → Nat) (numBuckets : Nat) (l : List R) : List R :=
  let lo := keyMinOf key l
  let hi := keyMaxOf key l
  ((bucketListsOf key numBuckets lo hi l).map
    (fun b => List.insertionSort (keyLE key) b)).flatten

/-- `CudaSort::sort` (C++ lines 101-142): the precondition check and the
zero-length early return, then the dispatch on `isShortList`; the `ops`
trace records every `executeKernel` / `clearBuffer` call with the exact
arguments of the source, and `result` gives the final contents of the
borrowed buffer (kernel effects modelled from the spec as above). -/
def cudaSort {R : Type} (cfg : SortConfig) (trait : SortTrait) (key : R → Nat)
    (data : Buffer R) : SortRun R :=
  if data.elems.length ≠ cfg.dataLength ∨ data.elementSize ≠ trait.dataSize then
    { ops := [], result := Except.error SortError.invalidArgument }
  else if data.elems.length = 0 then
    { ops := [], result := Except.ok data.elems }
  else if cfg.isShortList then
    { ops := [DeviceOp.launch KernelName.sortShortList cfg.sortKernelSize
        (some cfg.sortKernelSize) (cfg.dataLength * trait.dataSize)]
      result := Except.ok (sortShortListKernel key data.elems) }
  else
    { ops := [
        DeviceOp.launch KernelName.computeRange cfg.rangeKernelSize
          (some cfg.rangeKernelSize) (cfg.rangeKernelSize * trait.keySize),
        DeviceOp.clearBuffer "bucketOffset",
        DeviceOp.launch KernelName.assignElementsToBuckets data.elems.length none 0,
        DeviceOp.launch KernelName.computeBucketPositions cfg.positionsKernelSize
          (some cfg.positionsKernelSize) (cfg.positionsKernelSize * 4),
        DeviceOp.launch KernelName.copyDataToBuckets data.elems.length none 0,
        DeviceOp.launch KernelName.sortBuckets
          (((data.elems.length + cfg.sortKernelSize - 1) / cfg.sortKernelSize) *
            cfg.sortKernelSize)
          (some cfg.sortKernelSize) (cfg.sortKernelSize * trait.dataSize)]
      result := Except.ok (bucketPipeline key cfg.numBuckets data.elems) }

/-! ### Properties of the block-size doubling loop -/

theorem rangeLoop_pow2 (mbs : Nat) :
    ∀ fuel k, (∃ j, k = 2 ^ j) → ∃ j, rangeLoop mbs k fuel = 2 ^ j := by
  intro fuel
  induction fuel with
  | zero => intro k h; exact h
  | succ fuel ih =>
    intro k h
    simp only [rangeLoop]
    split
    · refine ih (k * 2) ?_
      obtain ⟨j, rfl⟩ := h
      exact ⟨j + 1, (Nat.pow_succ 2 j).symm⟩
    · exact h

theorem rangeLoop_le (mbs : Nat) :
    ∀ fuel k, k ≤ mbs → rangeLoop mbs k fuel ≤ mbs := by
  intro fuel
  induction fuel with
  | zero => intro k h; exact h
  | succ fuel ih =>
    intro k h
    simp only [rangeLoop]
    split
    · exact ih (k * 2) (by omega)
    · exact h

theorem le_rangeLoop (mbs : Nat) :
    ∀ fuel k, k ≤ rangeLoop mbs k fuel := by
  intro fuel
  induction fuel with
  | zero => intro k; exact Nat.le_refl k
  | succ fuel ih =>
    intro k
    simp only [rangeLoop]
    split
    · exact Nat.le_trans (by omega) (ih (k * 2))
    · exact Nat.le_refl k

theorem rangeLoop_mul_two_gt (mbs : Nat) :
    ∀ fuel k, 0 < k → mbs < k * 2 ^ fuel → mbs < rangeLoop mbs k fuel * 2 := by
  intro fuel
  induction fuel with
  | zero => intro k hk h; simp only [rangeLoop]; simpa using (by omega : mbs < k * 2)
  | succ fuel ih =>
    intro k hk h
    simp only [rangeLoop]
    split
    · refine ih (k * 2) (by omega) ?_
      calc mbs < k * 2 ^ (fuel + 1) := h
        _ = k * 2 * 2 ^ fuel := by ring
    · omega

theorem rangeKernelSize0_pow2 (mbs : Nat) : ∃ j, rangeKernelSize0 mbs = 2 ^ j :=
  rangeLoop_pow2 mbs mbs 1 ⟨0, rfl⟩

theorem rangeKernelSize0_le (mbs : Nat) (h : 1 ≤ mbs) : rangeKernelSize0 mbs ≤ mbs :=
  rangeLoop_le mbs mbs 1 h

theorem one_le_rangeKernelSize0 (mbs : Nat) : 1 ≤ rangeKernelSize0 mbs :=
  le_rangeLoop mbs mbs 1

theorem lt_rangeKernelSize0_mul_two (mbs : Nat) : mbs < rangeKernelSize0 mbs * 2 :=
  rangeLoop_mul_two_gt mbs mbs 1 Nat.one_pos (by simpa using Nat.lt_two_pow mbs)

/-- If a power of two fits under the block-size limit, the loop result is
at least that power of two. -/
theorem pow_le_rangeKernelSize0 (mbs m : Nat) (h : 2 ^ m ≤ mbs) :
    2 ^ m ≤ rangeKernelSize0 mbs := by
  obtain ⟨j, hj⟩ := rangeKernelSize0_pow2 mbs
  have h2 : mbs < 2 ^ j * 2 := hj ▸ lt_rangeKernelSize0_mul_two mbs
  have hmj : m < j + 1 := by
    have : 2 ^ m < 2 ^ (j + 1) := by
      calc 2 ^ m ≤ mbs := h
        _ < 2 ^ j * 2 := h2
        _ = 2 ^ (j + 1) := (Nat.pow_succ 2 j).symm
    exact (Nat.pow_lt_pow_iff_right (by omega)).mp this
  rw [hj]
  exact Nat.pow_le_pow_right (by omega) (by omega)

/-! ### Basic facts about the derived configuration -/

theorem numBuckets_pos (dev : Device) (trait : SortTrait) (L : Nat) :
    1 ≤ numBuckets dev trait L := by
  unfold numBuckets
  split <;> omega

theorem sortKernelSize_le_maxLocalBuffer (dev : Device) (trait : SortTrait) (L : Nat) :
    sortKernelSize dev trait L ≤ maxLocalBuffer dev.maxSharedMem trait.dataSize := by
  unfold sortKernelSize
  split <;> omega

/-- Any element count at most `maxLocalBuffer` fits in shared memory:
`n * dataSize ≤ maxSharedMem`. -/
theorem le_maxLocalBuffer_fits (S D n : Nat) (h : n ≤ maxLocalBuffer S D) :
    n * D ≤ S := by
  unfold maxLocalBuffer at h
  calc n * D ≤ S / D / 2 * D := Nat.mul_le_mul_right D h
    _ ≤ S / D * D := Nat.mul_le_mul_right D (Nat.div_le_self _ 2)
    _ ≤ S := Nat.div_mul_le_self S D

/-! ### Bucket arithmetic -/

theorem bucketIndex_mono (lo hi nb : Nat) {k1 k2 : Nat} (h : k1 ≤ k2) :
    bucketIndex lo hi nb k1 ≤ bucketIndex lo hi nb k2 := by
  unfold bucketIndex
  refine min_le_min ?_ (Nat.le_refl _)
  exact Nat.div_le_div_right (Nat.mul_le_mul_right nb (Nat.sub_le_sub_right h lo))

theorem bucketIndex_lt (lo hi k : Nat) {nb : Nat} (hnb : 0 < nb) :
    bucketIndex lo hi nb k < nb := by
  unfold bucketIndex
  have := Nat.min_le_right ((k - lo) * nb / (hi - lo + 1)) (nb - 1)
  omega

/-! ### Partitioning a list into bucket filters -/

/-- Filtering on a bucket below `nb` commutes with first discarding the
elements of bucket `nb`. -/
theorem filter_bucket_restrict {R : Type} (g : R → Nat) (nb : Nat) (l : List R)
    {i : Nat} (hi : i < nb) :
    l.filter (fun x => g x == i) =
      (l.filter (fun x => !(g x == nb))).filter (fun x => g x == i) := by
  rw [List.filter_filter]
  refine (List.filter_congr ?_).symm
  intro x _
  cases h : g x == i
  · simp
  · have hgi : g x = i := by simpa using h
    simp [hgi, Nat.ne_of_lt hi]

/-- Peeling the last bucket off the concatenation of all bucket filters. -/
theorem flatten_filters_succ {R : Type} (g : R → Nat) (nb : Nat) (l : List R) :
    ((List.range (nb + 1)).map (fun i => l.filter (fun x => g x == i))).flatten =
      ((List.range nb).map
        (fun i => (l.filter (fun x => !(g x == nb))).filter (fun x => g x == i))).flatten
        ++ l.filter (fun x => g x == nb) := by
  rw [List.range_succ, List.map_append, List.flatten_append]
  congr 1
  · refine congrArg List.flatten (List.map_congr_left ?_)
    intro i hi
    exact filter_bucket_restrict g nb l (List.mem_range.mp hi)
  · simp

/-- Concatenating the bucket filters in bucket order is a permutation of
the original list, provided every element lands in some bucket. -/
theorem flatten_filters_perm {R : Type} (g : R → Nat) :
    ∀ (nb : Nat) (l : List R), (∀ x ∈ l, g x < nb) →
      ((List.range nb).map (fun i => l.filter (fun x => g x == i))).flatten.Perm l := by
  intro nb
  induction nb with
  | zero =>
    intro l h
    have hl : l = [] := List.eq_nil_iff_forall_not_mem.mpr
      (fun x hx => absurd (h x hx) (Nat.not_lt_zero _))
    subst hl
    simp
  | succ nb ih =>
    intro l h
    rw [flatten_filters_succ]
    have h1 : ∀ x ∈ l.filter (fun x => !(g x == nb)), g x < nb := by
      intro x hx
      rw [List.mem_filter] at hx
      have hne : ¬ g x = nb := by simpa using hx.2
      have := h x hx.1
      omega
    refine List.Perm.trans (List.Perm.append_right _ (ih _ h1)) ?_
    have := List.filter_append_perm (fun x => !(g x == nb)) l
    simpa using this

/-- If the bucket values are non-decreasing along the list, the elements
of the top bucket form exactly the tail of the list: splitting off that
bucket and re-appending it reproduces the list. -/
theorem filter_split_of_monotone {R : Type} (g : R → Nat) (nb : Nat) :
    ∀ l : List R, (∀ x ∈ l, g x < nb + 1) → l.Pairwise (fun a b => g a ≤ g b) →
      l.filter (fun x => !(g x == nb)) ++ l.filter (fun x => g x == nb) = l := by
  intro l
  induction l with
  | nil => intro _ _; rfl
  | cons x xs ih =>
    intro hb hp
    rw [List.pairwise_cons] at hp
    obtain ⟨hx, hxs⟩ := hp
    cases hgx : g x == nb
    · have : ∀ y ∈ xs, g y < nb + 1 := fun y hy => hb y (List.mem_cons_of_mem x hy)
      simp only [List.filter_cons, hgx, Bool.not_false, if_pos rfl]
      simpa using ih this hxs
    · have hgxe : g x = nb := by simpa using hgx
      have hall : ∀ y ∈ xs, g y = nb := by
        intro y hy
        have h1 := hx y hy
        have h2 := hb y (List.mem_cons_of_mem x hy)
        omega
      have hfilter1 : xs.filter (fun y => !(g y == nb)) = [] := by
        rw [List.filter_eq_nil_iff]
        intro y hy
        simp [hall y hy]
      have hfilter2 : xs.filter (fun y => g y == nb) = xs := by
        rw [List.filter_eq_self]
        intro y hy
        simp [hall y hy]
      simp [List.filter_cons, hgx, hgxe, hfilter1, hfilter2]

/-- On a list whose bucket values are non-decreasing, concatenating the
bucket filters in bucket order reproduces the list exactly. -/
theorem flatten_filters_eq_of_monotone {R : Type} (g : R → Nat) :
    ∀ (nb : Nat) (l : List R), (∀ x ∈ l, g x < nb) →
      l.Pairwise (fun a b => g a ≤ g b) →
      ((List.range nb).map (fun i => l.filter (fun x => g x == i))).flatten = l := by
  intro nb
  induction nb with
  | zero =>
    intro l h _
    have hl : l = [] := List.eq_nil_iff_forall_not_mem.mpr
      (fun x hx => absurd (h x hx) (Nat.not_lt_zero _))
    subst hl
    simp
  | succ nb ih =>
    intro l h hp
    rw [flatten_filters_succ]
    have h1 : ∀ x ∈ l.filter (fun x => !(g x == nb)), g x < nb := by
      intro x hx
      rw [List.mem_filter] at hx
      have hne : ¬ g x = nb := by simpa using hx.2
      have := h x hx.1
      omega
    have hp1 : (l.filter (fun x => !(g x == nb))).Pairwise (fun a b => g a ≤ g b) :=
      hp.sublist (List.filter_sublist l) |>.imp (fun h => h) |>.imp (fun h => h)
    rw [ih _ h1 hp1]
    exact filter_split_of_monotone g nb l h hp

/-- Flattening respects element-wise permutation of the chunks. -/
theorem flatten_map_perm {R : Type} (f : List R → List R)
    (hf : ∀ b : List R, (f b).Perm b) :
    ∀ L : List (List R), (L.map f).flatten.Perm L.flatten := by
  intro L
  induction L with
  | nil => exact List.Perm.refl _
  | cons a L ih => simpa using List.Perm.append (hf a) ih

/-! ### Correctness of the modelled bucket pipeline -/

theorem sorted_bucketPipeline {R : Type} (key : R → Nat) (nb : Nat) (l : List R) :
    List.Sorted (keyLE key) (bucketPipeline key nb l) := by
  unfold bucketPipeline bucketListsOf
  rw [List.Sorted, List.pairwise_flatten]
  constructor
  · intro l2 hl2
    rw [List.mem_map] at hl2
    obtain ⟨b, _, rfl⟩ := hl2
    exact List.sorted_insertionSort (keyLE key) b
  · rw [List.pairwise_map, List.pairwise_map]
    refine (List.pairwise_lt_range nb).imp ?_
    intro i j hij x hx y hy
    rw [List.mem_insertionSort, List.mem_filter] at hx hy
    have hxi : bucketIndex (keyMinOf key l) (keyMaxOf key l) nb (key x) = i := by
      simpa using hx.2
    have hyj : bucketIndex (keyMinOf key l) (keyMaxOf key l) nb (key y) = j := by
      simpa using hy.2
    by_contra hxy
    have hyx : key y ≤ key x := by
      unfold keyLE at hxy; omega
    have := bucketIndex_mono (keyMinOf key l) (keyMaxOf key l) nb hyx
    omega

theorem perm_bucketPipeline {R : Type} (key : R → Nat) {nb : Nat} (hnb : 0 < nb)
    (l : List R) : (bucketPipeline key nb l).Perm l := by
  unfold bucketPipeline bucketListsOf
  refine List.Perm.trans
    (flatten_map_perm _ (fun b => List.perm_insertionSort (keyLE key) b) _) ?_
  exact flatten_filters_perm _ nb l
    (fun x _ => bucketIndex_lt (keyMinOf key l) (keyMaxOf key l) (key x) hnb)

theorem bucketPipeline_eq_self {R : Type} (key : R → Nat) {nb : Nat} (hnb : 0 < nb)
    (l : List R) (hs : List.Sorted (keyLE key) l) : bucketPipeline key nb l = l := by
  unfold bucketPipeline bucketListsOf
  have hsorted : ∀ b ∈ (List.range nb).map
      (fun i => l.filter (fun x =>
        bucketIndex (keyMinOf key l) (keyMaxOf key l) nb (key x) == i)),
      List.insertionSort (keyLE key) b = b := by
    intro b hb
    rw [List.mem_map] at hb
    obtain ⟨i, _, rfl⟩ := hb
    exact List.Sorted.insertionSort_eq (hs.sublist (List.filter_sublist l))
  show (List.map (fun b => List.insertionSort (keyLE key) b)
      ((List.range nb).map (fun i => l.filter (fun x =>
        bucketIndex (keyMinOf key l) (keyMaxOf key l) nb (key x) == i)))).flatten = l
  rw [List.map_congr_left hsorted, List.map_id']
  refine flatten_filters_eq_of_monotone _ nb l
    (fun x _ => bucketIndex_lt (keyMinOf key l) (keyMaxOf key l) (key x) hnb) ?_
  exact hs.imp (fun h => bucketIndex_mono (keyMinOf key l) (keyMaxOf key l) nb h)

/-! ### Claim C1 -/

/-- C1: for every construction with array length `L`, record data size
`dataSize`, and device shared-memory limit `maxSharedMem`, the derived
`isShortList` flag is true iff `L ≤ maxSharedMem / dataSize / 2` (integer
divisions), and the selection depends only on that triple: two
configurations built with identical `(length, dataSize, shared-memory
limit)` select the same `isShortList` value. -/
theorem isShortList_characterisation (dev : Device) (trait : SortTrait) (L : Nat) :
    ((mkConfig dev trait L).isShortList = true ↔
      L ≤ dev.maxSharedMem / trait.dataSize / 2)
    ∧ ∀ (dev2 : Device) (trait2 : SortTrait),
        dev2.maxSharedMem = dev.maxSharedMem → trait2.dataSize = trait.dataSize →
        (mkConfig dev2 trait2 L).isShortList = (mkConfig dev trait L).isShortList := by
  constructor
  · show isShortList dev trait L = true ↔ _
    unfold isShortList maxLocalBuffer
    exact decide_eq_true_iff
  · intro dev2 trait2 h1 h2
    show isShortList dev2 trait2 L = isShortList dev trait L
    unfold isShortList maxLocalBuffer
    rw [h1, h2]

theorem isShortList_characterisation_witness :
    (mkConfig ⟨512, 49152⟩ ⟨8, 16⟩ 2000).isShortList =
      (mkConfig ⟨1024, 49152⟩ ⟨8, 4⟩ 2000).isShortList :=
  (isShortList_characterisation ⟨1024, 49152⟩ ⟨8, 4⟩ 2000).2 ⟨512, 49152⟩ ⟨8, 16⟩ rfl rfl

/-! ### Claim C2 -/

/-- C2: for every buffer matching the configured length and element size
(and a well-defined construction, `targetBucketSize > 0`), `sort`
succeeds and returns the buffer non-decreasing under the extracted key
ordering and as a permutation of the original contents, whichever of the
two strategies is dispatched; sorting an already-sorted buffer returns it
unchanged. -/
theorem sort_sorted_perm_idempotent {R : Type} (key : R → Nat) (dev : Device)
    (trait : SortTrait) (L : Nat) (data : Buffer R)
    (hlen : data.elems.length = L) (hsz : data.elementSize = trait.dataSize)
    (_hwf : 0 < targetBucketSize dev trait L) :
    ∃ out : List R,
      (cudaSort (mkConfig dev trait L) trait key data).result = Except.ok out
      ∧ List.Sorted (keyLE key) out
      ∧ out.Perm data.elems
      ∧ (List.Sorted (keyLE key) data.elems → out = data.elems) := by
  have hcond : ¬(data.elems.length ≠ (mkConfig dev trait L).dataLength
      ∨ data.elementSize ≠ trait.dataSize) := by
    push_neg
    exact ⟨hlen, hsz⟩
  unfold cudaSort
  rw [if_neg hcond]
  by_cases h0 : data.elems.length = 0
  · rw [if_pos h0]
    refine ⟨data.elems, rfl, ?_, List.Perm.refl _, fun _ => rfl⟩
    rw [List.length_eq_zero.mp h0]
    exact List.sorted_nil
  · rw [if_neg h0]
    by_cases hs : (mkConfig dev trait L).isShortList
    · rw [if_pos hs]
      exact ⟨_, rfl, List.sorted_insertionSort _ _, List.perm_insertionSort _ _,
        fun hsort => hsort.insertionSort_eq⟩
    · rw [if_neg hs]
      have hnb : 0 < (mkConfig dev trait L).numBuckets := numBuckets_pos dev trait L
      exact ⟨_, rfl, sorted_bucketPipeline key _ _, perm_bucketPipeline key hnb _,
        fun hsort => bucketPipeline_eq_self key hnb _ hsort⟩

theorem sort_sorted_perm_idempotent_witness :
    ∃ out : List Nat,
      (cudaSort (mkConfig ⟨1024, 49152⟩ ⟨8, 4⟩ 5) ⟨8, 4⟩ (fun n : Nat => n)
        ⟨[5, 3, 9, 1, 3], 8⟩).result = Except.ok out
      ∧ List.Sorted (keyLE (fun n : Nat => n)) out
      ∧ out.Perm [5, 3, 9, 1, 3]
      ∧ (List.Sorted (keyLE (fun n : Nat => n)) [5, 3, 9, 1, 3] → out = [5, 3, 9, 1, 3]) :=
  sort_sorted_perm_idempotent (fun n : Nat => n) ⟨1024, 49152⟩ ⟨8, 4⟩ 5
    ⟨[5, 3, 9, 1, 3], 8⟩ rfl rfl (by decide)

/-! ### Claim C4 -/

/-- C4: `numBuckets` equals `max 1 (length / (sortKernelSize / 2))`
(integer division, the divisor being `targetBucketSize`), so on the
bucket path `numBuckets ≥ 1` even when `length < sortKernelSize / 2`; the
hypothesis records that the C++ division is well defined. -/
theorem numBuckets_formula (dev : Device) (trait : SortTrait) (L : Nat)
    (_hwf : 0 < targetBucketSize dev trait L) :
    (mkConfig dev trait L).numBuckets =
      max 1 (L / ((mkConfig dev trait L).sortKernelSize / 2))
    ∧ 1 ≤ (mkConfig dev trait L).numBuckets := by
  constructor
  · show numBuckets dev trait L = max 1 (L / (sortKernelSize dev trait L / 2))
    unfold numBuckets targetBucketSize
    split <;> omega
  · exact numBuckets_pos dev trait L

theorem numBuckets_formula_witness :
    (mkConfig ⟨1024, 49152⟩ ⟨8, 4⟩ 7).numBuckets =
      max 1 (7 / ((mkConfig ⟨1024, 49152⟩ ⟨8, 4⟩ 7).sortKernelSize / 2))
    ∧ 1 ≤ (mkConfig ⟨1024, 49152⟩ ⟨8, 4⟩ 7).numBuckets :=
  numBuckets_formula ⟨1024, 49152⟩ ⟨8, 4⟩ 7 (by decide)

/-! ### Claim C5 -/

/-- C5: `sort` fails with the invalid-argument error iff the buffer's
length differs from the configured length or its element size differs
from the descriptor's data size, and in that case it issues no backend
operation at all (no launch, no clear). -/
theorem sort_invalidArgument_iff {R : Type} (cfg : SortConfig) (trait : SortTrait)
    (key : R → Nat) (data : Buffer R) :
    ((cudaSort cfg trait key data).result = Except.error SortError.invalidArgument
      ↔ (data.elems.length ≠ cfg.dataLength ∨ data.elementSize ≠ trait.dataSize))
    ∧ ((data.elems.length ≠ cfg.dataLength ∨ data.elementSize ≠ trait.dataSize) →
        (cudaSort cfg trait key data).ops = []) := by
  refine ⟨⟨fun herr => ?_, fun h => ?_⟩, fun h => ?_⟩
  · by_contra hne
    unfold cudaSort at herr
    rw [if_neg hne] at herr
    by_cases h0 : data.elems.length = 0
    · rw [if_pos h0] at herr
      exact Except.noConfusion herr
    · rw [if_neg h0] at herr
      by_cases hs : cfg.isShortList
      · rw [if_pos hs] at herr
        exact Except.noConfusion herr
      · rw [if_neg hs] at herr
        exact Except.noConfusion herr
  · unfold cudaSort
    rw [if_pos h]
  · unfold cudaSort
    rw [if_pos h]

theorem sort_invalidArgument_iff_witness :
    (cudaSort (mkConfig ⟨1024, 49152⟩ ⟨8, 4⟩ 3) ⟨8, 4⟩ (fun n : Nat => n)
      ⟨[1, 2], 8⟩).ops = [] :=
  (sort_invalidArgument_iff (mkConfig ⟨1024, 49152⟩ ⟨8, 4⟩ 3) ⟨8, 4⟩
    (fun n : Nat => n) ⟨[1, 2], 8⟩).2 (Or.inl (by decide))

/-! ### Claim C6 -/

/-- C6 counterexample: a scheduler configured with `length == 0` does
*not* make every `sort` call succeed — the precondition check runs first,
so a call with a non-empty buffer (here one element of the correct
element size) throws the invalid-argument error instead of being a
successful no-op. -/
theorem sort_zero_length_cex :
    (cudaSort (mkConfig ⟨1024, 49152⟩ ⟨8, 4⟩ 0) ⟨8, 4⟩ (fun n : Nat => n)
      ⟨[7], 8⟩).result = Except.error SortError.invalidArgument := rfl

/-- C6 (amended): for a scheduler configured with `length == 0`, every
`sort` call whose buffer satisfies the precondition (zero-length buffer
of matching element size) is a no-op that succeeds: it returns the buffer
unchanged and issues no kernel launch or buffer clear. -/
theorem sort_zero_length_noop {R : Type} (key : R → Nat) (dev : Device)
    (trait : SortTrait) (data : Buffer R)
    (h0 : data.elems = []) (hsz : data.elementSize = trait.dataSize) :
    (cudaSort (mkConfig dev trait 0) trait key data).result = Except.ok data.elems
    ∧ (cudaSort (mkConfig dev trait 0) trait key data).ops = [] := by
  have hcond : ¬(data.elems.length ≠ (mkConfig dev trait 0).dataLength
      ∨ data.elementSize ≠ trait.dataSize) := by
    push_neg
    refine ⟨?_, hsz⟩
    rw [h0]
    rfl
  have h00 : data.elems.length = 0 := by rw [h0]; rfl
  unfold cudaSort
  rw [if_neg hcond, if_pos h00]
  exact ⟨rfl, rfl⟩

theorem sort_zero_length_noop_witness :
    (cudaSort (mkConfig ⟨1024, 49152⟩ ⟨8, 4⟩ 0) ⟨8, 4⟩ (fun n : Nat => n)
      ⟨([] : List Nat), 8⟩).result = Except.ok ([] : List Nat)
    ∧ (cudaSort (mkConfig ⟨1024, 49152⟩ ⟨8, 4⟩ 0) ⟨8, 4⟩ (fun n : Nat => n)
      ⟨([] : List Nat), 8⟩).ops = [] :=
  sort_zero_length_noop (fun n : Nat => n) ⟨1024, 49152⟩ ⟨8, 4⟩ ⟨[], 8⟩ rfl rfl

/-! ### Claim C3 -/

/-- C3 counterexample: the claim that all three derived group sizes are
powers of two fails — on a standard device (max block size 1024, 49152
bytes of shared memory) with 8-byte records and length 400, the clamp
`if (rangeKernelSize > length) rangeKernelSize = length` leaves
`rangeKernelSize = 400`, which is not a power of two. -/
theorem groupSizes_pow2_cex :
    (mkConfig ⟨1024, 49152⟩ ⟨8, 4⟩ 400).rangeKernelSize = 400
    ∧ ¬ ∃ k, (400 : Nat) = 2 ^ k := by
  refine ⟨rfl, ?_⟩
  rintro ⟨k, hk⟩
  have hk9 : k < 9 := by
    by_contra h
    push_neg at h
    have : 2 ^ 9 ≤ 2 ^ k := Nat.pow_le_pow_right (by omega) h
    omega
  interval_cases k <;> omega

/-- C3 (amended): with a block-size limit of at least 4 (so the halving
rule cannot underflow) and a well-defined construction, the three group
sizes never exceed the device's maximum block size, and each is a power
of two except when its clamp fired, in which case it equals the clamp
bound (`length` for `rangeKernelSize`, `maxLocalBuffer` for
`sortKernelSize`, `numBuckets` for `positionsKernelSize`). -/
theorem groupSizes_bounded_amended (dev : Device) (trait : SortTrait) (L : Nat)
    (hb : 4 ≤ dev.maxBlockSize) (_hwf : 0 < targetBucketSize dev trait L) :
    ((mkConfig dev trait L).rangeKernelSize ≤ dev.maxBlockSize
      ∧ (mkConfig dev trait L).positionsKernelSize ≤ dev.maxBlockSize
      ∧ (mkConfig dev trait L).sortKernelSize ≤ dev.maxBlockSize)
    ∧ ((∃ k, (mkConfig dev trait L).rangeKernelSize = 2 ^ k)
        ∨ (mkConfig dev trait L).rangeKernelSize = L)
    ∧ ((∃ k, (mkConfig dev trait L).sortKernelSize = 2 ^ k)
        ∨ (mkConfig dev trait L).sortKernelSize =
            maxLocalBuffer dev.maxSharedMem trait.dataSize)
    ∧ ((∃ k, (mkConfig dev trait L).positionsKernelSize = 2 ^ k)
        ∨ (mkConfig dev trait L).positionsKernelSize = (mkConfig dev trait L).numBuckets) := by
  have hrk0le := rangeKernelSize0_le dev.maxBlockSize (by omega)
  obtain ⟨j, hj⟩ := rangeKernelSize0_pow2 dev.maxBlockSize
  have hrk04 : 4 ≤ rangeKernelSize0 dev.maxBlockSize := by
    have h4 := pow_le_rangeKernelSize0 dev.maxBlockSize 2 (by omega)
    omega
  have hj2 : 2 ≤ j := by
    by_contra h
    push_neg at h
    have : 2 ^ j ≤ 2 ^ 1 := Nat.pow_le_pow_right (by omega) (by omega)
    omega
  have hsk0le : sortKernelSize0 dev trait L ≤ rangeKernelSize0 dev.maxBlockSize := by
    unfold sortKernelSize0
    split <;> exact Nat.div_le_self _ _
  refine ⟨⟨?_, ?_, ?_⟩, ?_, ?_, ?_⟩
  · show rangeKernelSize dev trait L ≤ dev.maxBlockSize
    unfold rangeKernelSize
    split <;> omega
  · show positionsKernelSize dev trait L ≤ dev.maxBlockSize
    unfold positionsKernelSize
    split <;> omega
  · show sortKernelSize dev trait L ≤ dev.maxBlockSize
    unfold sortKernelSize
    split <;> omega
  · show (∃ k, rangeKernelSize dev trait L = 2 ^ k) ∨ rangeKernelSize dev trait L = L
    unfold rangeKernelSize
    split
    · exact Or.inr rfl
    · exact Or.inl ⟨j, hj⟩
  · show (∃ k, sortKernelSize dev trait L = 2 ^ k)
        ∨ sortKernelSize dev trait L = maxLocalBuffer dev.maxSharedMem trait.dataSize
    unfold sortKernelSize
    split
    · exact Or.inr rfl
    · refine Or.inl ?_
      unfold sortKernelSize0
      split
      · refine ⟨j - 1, ?_⟩
        have hsplit : (2 : Nat) ^ j = 2 ^ (j - 1) * 2 := by
          rw [← Nat.pow_succ]
          congr 1
          omega
        rw [hj, hsplit, Nat.mul_div_cancel _ (by omega)]
      · refine ⟨j - 2, ?_⟩
        have hsplit : (2 : Nat) ^ j = 2 ^ (j - 2) * 4 := by
          rw [show (4 : Nat) = 2 ^ 2 from rfl, ← Nat.pow_add]
          congr 1
          omega
        rw [hj, hsplit, Nat.mul_div_cancel _ (by omega)]
  · show (∃ k, positionsKernelSize dev trait L = 2 ^ k)
        ∨ positionsKernelSize dev trait L = numBuckets dev trait L
    unfold positionsKernelSize
    split
    · exact Or.inr rfl
    · exact Or.inl ⟨j, hj⟩

theorem groupSizes_bounded_amended_witness :
    ((mkConfig ⟨1024, 49152⟩ ⟨8, 4⟩ 400).rangeKernelSize ≤ 1024
      ∧ (mkConfig ⟨1024, 49152⟩ ⟨8, 4⟩ 400).positionsKernelSize ≤ 1024
      ∧ (mkConfig ⟨1024, 49152⟩ ⟨8, 4⟩ 400).sortKernelSize ≤ 1024)
    ∧ ((∃ k, (mkConfig ⟨1024, 49152⟩ ⟨8, 4⟩ 400).rangeKernelSize = 2 ^ k)
        ∨ (mkConfig ⟨1024, 49152⟩ ⟨8, 4⟩ 400).rangeKernelSize = 400)
    ∧ ((∃ k, (mkConfig ⟨1024, 49152⟩ ⟨8, 4⟩ 400).sortKernelSize = 2 ^ k)
        ∨ (mkConfig ⟨1024, 49152⟩ ⟨8, 4⟩ 400).sortKernelSize = maxLocalBuffer 49152 8)
    ∧ ((∃ k, (mkConfig ⟨1024, 49152⟩ ⟨8, 4⟩ 400).positionsKernelSize = 2 ^ k)
        ∨ (mkConfig ⟨1024, 49152⟩ ⟨8, 4⟩ 400).positionsKernelSize =
            (mkConfig ⟨1024, 49152⟩ ⟨8, 4⟩ 400).numBuckets) :=
  groupSizes_bounded_amended ⟨1024, 49152⟩ ⟨8, 4⟩ 400 (by decide) (by decide)

/-! ### Claim C7 -/

/-- C7: every successful `sort` call with nonzero length dispatches
exactly one of the two paths, never a mixture: on the short-list path the
trace is a single launch of the short-list kernel with `sortKernelSize`
threads in one group of `sortKernelSize` and a shared-memory grant of
`length * dataSize` bytes; otherwise it is exactly, in order, the range
kernel, the clear of `bucketOffset`, the bucket-assignment kernel with
one thread per element, the bucket-positions kernel, the scatter kernel
with one thread per element, and the per-bucket sort kernel with
`ceil(length / sortKernelSize) * sortKernelSize` total threads in groups
of `sortKernelSize`. -/
theorem sort_trace_dichotomy {R : Type} (key : R → Nat) (dev : Device)
    (trait : SortTrait) (L : Nat) (data : Buffer R)
    (hlen : data.elems.length = L) (hsz : data.elementSize = trait.dataSize)
    (hnz : L ≠ 0) (_hwf : 0 < targetBucketSize dev trait L) :
    ((mkConfig dev trait L).isShortList = true →
      (cudaSort (mkConfig dev trait L) trait key data).ops =
        [DeviceOp.launch KernelName.sortShortList (mkConfig dev trait L).sortKernelSize
          (some (mkConfig dev trait L).sortKernelSize) (L * trait.dataSize)])
    ∧ ((mkConfig dev trait L).isShortList = false →
      (cudaSort (mkConfig dev trait L) trait key data).ops =
        [DeviceOp.launch KernelName.computeRange (mkConfig dev trait L).rangeKernelSize
          (some (mkConfig dev trait L).rangeKernelSize)
          ((mkConfig dev trait L).rangeKernelSize * trait.keySize),
        DeviceOp.clearBuffer "bucketOffset",
        DeviceOp.launch KernelName.assignElementsToBuckets L none 0,
        DeviceOp.launch KernelName.computeBucketPositions
          (mkConfig dev trait L).positionsKernelSize
          (some (mkConfig dev trait L).positionsKernelSize)
          ((mkConfig dev trait L).positionsKernelSize * 4),
        DeviceOp.launch KernelName.copyDataToBuckets L none 0,
        DeviceOp.launch KernelName.sortBuckets
          (((L + (mkConfig dev trait L).sortKernelSize - 1) /
              (mkConfig dev trait L).sortKernelSize) * (mkConfig dev trait L).sortKernelSize)
          (some (mkConfig dev trait L).sortKernelSize)
          ((mkConfig dev trait L).sortKernelSize * trait.dataSize)]) := by
  subst hlen
  have hcond : ¬(data.elems.length ≠ (mkConfig dev trait data.elems.length).dataLength
      ∨ data.elementSize ≠ trait.dataSize) := by
    push_neg
    exact ⟨rfl, hsz⟩
  constructor
  · intro hs
    unfold cudaSort
    rw [if_neg hcond, if_neg hnz, if_pos hs]
    exact rfl
  · intro hs
    unfold cudaSort
    rw [if_neg hcond, if_neg hnz, if_neg (by simp [hs])]

theorem sort_trace_dichotomy_witness :
    (cudaSort (mkConfig ⟨1024, 49152⟩ ⟨8, 4⟩ 3) ⟨8, 4⟩ (fun n : Nat => n)
      ⟨[3, 1, 2], 8⟩).ops =
      [DeviceOp.launch KernelName.sortShortList (mkConfig ⟨1024, 49152⟩ ⟨8, 4⟩ 3).sortKernelSize
        (some (mkConfig ⟨1024, 49152⟩ ⟨8, 4⟩ 3).sortKernelSize) (3 * 8)] :=
  (sort_trace_dichotomy (fun n : Nat => n) ⟨1024, 49152⟩ ⟨8, 4⟩ 3 ⟨[3, 1, 2], 8⟩
    rfl rfl (by omega) (by decide)).1 (by decide)

/-! ### Claim C8 -/

set_option maxRecDepth 10000 in
/-- C8 counterexample: the range kernel's shared-memory grant
`rangeKernelSize * keySize` is *not* bounded by the device's maximum
shared memory per block — with 49152 bytes of shared memory, 64-byte
records keyed by 64-byte keys, and length 1000 (a bucket-path
construction), the trace contains a range-kernel launch asking for
64000 bytes of shared memory, which exceeds 49152. -/
theorem shared_mem_cex :
    DeviceOp.launch KernelName.computeRange 1000 (some 1000) 64000 ∈
      (cudaSort (mkConfig ⟨1024, 49152⟩ ⟨64, 64⟩ 1000) ⟨64, 64⟩ (fun n : Nat => n)
        ⟨List.replicate 1000 0, 64⟩).ops
    ∧ 49152 < 64000 := by
  constructor
  · decide
  · omega

/-- C8 (amended): for every successful `sort` call on a matching buffer,
the short-list launch's shared-memory grant (`length * dataSize`) never
exceeds the device's maximum shared memory per block, and the per-bucket
sort launch's grant equals `sortKernelSize * dataSize` exactly (so it is
never smaller than that) and never exceeds the device maximum either; the
range and positions grants carry no such bound. -/
theorem shared_mem_bounds {R : Type} (key : R → Nat) (dev : Device)
    (trait : SortTrait) (L : Nat) (data : Buffer R)
    (hlen : data.elems.length = L) (hsz : data.elementSize = trait.dataSize)
    (_hwf : 0 < targetBucketSize dev trait L) :
    ∀ op ∈ (cudaSort (mkConfig dev trait L) trait key data).ops,
      (∀ n g s, op = DeviceOp.launch KernelName.sortShortList n g s →
        s ≤ dev.maxSharedMem)
      ∧ (∀ n g s, op = DeviceOp.launch KernelName.sortBuckets n g s →
        s = (mkConfig dev trait L).sortKernelSize * trait.dataSize
        ∧ s ≤ dev.maxSharedMem) := by
  subst hlen
  have hcond : ¬(data.elems.length ≠ (mkConfig dev trait data.elems.length).dataLength
      ∨ data.elementSize ≠ trait.dataSize) := by
    push_neg
    exact ⟨rfl, hsz⟩
  have hfit2 : sortKernelSize dev trait data.elems.length * trait.dataSize ≤
      dev.maxSharedMem :=
    le_maxLocalBuffer_fits dev.maxSharedMem trait.dataSize _
      (sortKernelSize_le_maxLocalBuffer dev trait data.elems.length)
  unfold cudaSort
  rw [if_neg hcond]
  by_cases h0 : data.elems.length = 0
  · rw [if_pos h0]
    intro op hop
    exact absurd hop (List.not_mem_nil op)
  · rw [if_neg h0]
    by_cases hs : (mkConfig dev trait data.elems.length).isShortList
    · rw [if_pos hs]
      have hfit1 : data.elems.length * trait.dataSize ≤ dev.maxSharedMem := by
        refine le_maxLocalBuffer_fits dev.maxSharedMem trait.dataSize _ ?_
        have : isShortList dev trait data.elems.length = true := hs
        unfold isShortList at this
        exact of_decide_eq_true this
      intro op hop
      rw [List.mem_singleton] at hop
      subst hop
      refine ⟨fun n g s heq => ?_, fun n g s heq => (nomatch heq)⟩
      cases heq
      exact hfit1
    · rw [if_neg hs]
      intro op hop
      simp only [List.mem_cons, List.not_mem_nil, or_false] at hop
      rcases hop with rfl | rfl | rfl | rfl | rfl | rfl
      · exact ⟨fun n g s heq => (nomatch heq), fun n g s heq => nomatch heq⟩
      · exact ⟨fun n g s heq => (nomatch heq), fun n g s heq => nomatch heq⟩
      · exact ⟨fun n g s heq => (nomatch heq), fun n g s heq => nomatch heq⟩
      · exact ⟨fun n g s heq => (nomatch heq), fun n g s heq => nomatch heq⟩
      · exact ⟨fun n g s heq => (nomatch heq), fun n g s heq => nomatch heq⟩
      · refine ⟨fun n g s heq => (nomatch heq), fun n g s heq => ?_⟩
        cases heq
        exact ⟨rfl, hfit2⟩

theorem shared_mem_bounds_witness :
    (mkConfig ⟨1024, 49152⟩ ⟨8, 4⟩ 3).dataLength * 8 ≤ 49152 :=
  (shared_mem_bounds (fun n : Nat => n) ⟨1024, 49152⟩ ⟨8, 4⟩ 3 ⟨[3, 1, 2], 8⟩
    rfl rfl (by decide)
    (DeviceOp.launch KernelName.sortShortList (mkConfig ⟨1024, 49152⟩ ⟨8, 4⟩ 3).sortKernelSize
      (some (mkConfig ⟨1024, 49152⟩ ⟨8, 4⟩ 3).sortKernelSize)
      ((mkConfig ⟨1024, 49152⟩ ⟨8, 4⟩ 3).dataLength * 8)) (by decide)).1
    (mkConfig ⟨1024, 49152⟩ ⟨8, 4⟩ 3).sortKernelSize
    (some (mkConfig ⟨1024, 49152⟩ ⟨8, 4⟩ 3).sortKernelSize)
    ((mkConfig ⟨1024, 49152⟩ ⟨8, 4⟩ 3).dataLength * 8) rfl

/-! ### Claim C9 -/

/-- C9: `sortKernelSize` equals half the pre-clamp `rangeKernelSize` on
the short-list path and a quarter of it otherwise, clamped down to
`maxLocalBuffer = maxSharedMem / dataSize / 2` if it exceeds it; on the
spec's concrete device (1024 max block, 49152 bytes shared) with 8-byte
records and length 1,000,000 this yields `isShortList = false`,
`sortKernelSize = 256`, `numBuckets = 7812`, `positionsKernelSize =
1024`. -/
theorem sortKernelSize_rule :
    (∀ (dev : Device) (trait : SortTrait) (L : Nat),
      (mkConfig dev trait L).sortKernelSize =
        min (if (mkConfig dev trait L).isShortList then
              rangeKernelSize0 dev.maxBlockSize / 2
            else rangeKernelSize0 dev.maxBlockSize / 4)
          (maxLocalBuffer dev.maxSharedMem trait.dataSize))
    ∧ (mkConfig ⟨1024, 49152⟩ ⟨8, 4⟩ 1000000).isShortList = false
    ∧ (mkConfig ⟨1024, 49152⟩ ⟨8, 4⟩ 1000000).sortKernelSize = 256
    ∧ (mkConfig ⟨1024, 49152⟩ ⟨8, 4⟩ 1000000).numBuckets = 7812
    ∧ (mkConfig ⟨1024, 49152⟩ ⟨8, 4⟩ 1000000).positionsKernelSize = 1024 := by
  refine ⟨?_, by decide, by decide, by decide, by decide⟩
  intro dev trait L
  show sortKernelSize dev trait L =
    min (if isShortList dev trait L then rangeKernelSize0 dev.maxBlockSize / 2
         else rangeKernelSize0 dev.maxBlockSize / 4)
      (maxLocalBuffer dev.maxSharedMem trait.dataSize)
  unfold sortKernelSize sortKernelSize0
  rcases Nat.lt_or_ge (maxLocalBuffer dev.maxSharedMem trait.dataSize)
      (if isShortList dev trait L then rangeKernelSize0 dev.maxBlockSize / 2
       else rangeKernelSize0 dev.maxBlockSize / 4) with h | h
  · rw [if_pos h, Nat.min_eq_right (Nat.le_of_lt h)]
  · rw [if_neg (Nat.not_lt.mpr h), Nat.min_eq_left h]

/-! ### Claim C10 -/

/-- C10 counterexample: construction does *not* always avoid a zero
divisor — with max block size 1024 but zero reported shared memory
(allowed by the claim's stated input domain: any max shared memory ≥ 0,
dataSize 8 ≥ keySize 4 > 0, length 5 ≥ 0), `sortKernelSize` is clamped to
`maxLocalBuffer = 0`, so `targetBucketSize = sortKernelSize/2 = 0` and
the C++ division `length / targetBucketSize` on line 70 divides by
zero. -/
theorem targetBucketSize_cex :
    targetBucketSize ⟨1024, 0⟩ ⟨8, 4⟩ 5 = 0 := by decide

/-- C10 (amended): the construction-time divisor `targetBucketSize =
sortKernelSize/2` is positive — so the `numBuckets` division is safe —
whenever the device reports a maximum block size of at least 8 and the
short-list capacity `maxLocalBuffer = maxSharedMem / dataSize / 2` is at
least 2 (both hold on any real device with the descriptor invariant
`dataSize ≥ keySize > 0`). -/
theorem targetBucketSize_pos (dev : Device) (trait : SortTrait) (L : Nat)
    (hb : 8 ≤ dev.maxBlockSize)
    (hm : 2 ≤ maxLocalBuffer dev.maxSharedMem trait.dataSize) :
    0 < targetBucketSize dev trait L := by
  have h8 : 8 ≤ rangeKernelSize0 dev.maxBlockSize := by
    have := pow_le_rangeKernelSize0 dev.maxBlockSize 3 (by omega)
    omega
  have hsk0 : 2 ≤ sortKernelSize0 dev trait L := by
    unfold sortKernelSize0
    split <;> omega
  unfold targetBucketSize sortKernelSize
  split <;> omega

theorem targetBucketSize_pos_witness : 0 < targetBucketSize ⟨1024, 49152⟩ ⟨8, 4⟩ 100 :=
  targetBucketSize_pos ⟨1024, 49152⟩ ⟨8, 4⟩ 100 (by decide) (by decide)

end CudaSortModel
